import Mathlib

/-!
Verification of the audio turn-taking pipeline of `pi-voice/voice.py`
(Megatron voice assistant).

The Python script is shallowly embedded below.  Python strings are modelled
as `List Char` (`Str`); raw int16 audio chunks are modelled as lists of
integer samples; every external collaborator (Whisper decode, the Groq chat
endpoint, ElevenLabs synthesis, the `mpg123` subprocess, the Home-Assistant
REST endpoint, and `json.loads`) is passed in as an explicit function
parameter, with fallible HTTP calls returning `Except Err _` — an
`Except.error` result of an embedded function means the corresponding Python
call raised an exception that the function under scrutiny did not catch.
-/

set_option maxHeartbeats 1000000

/-- Python strings, modelled as character lists. -/
abbrev Str := List Char

/-- One raw audio chunk (`data` from `audio_input.read()`), as its int16
samples (`np.frombuffer(audio_data, dtype=np.int16)`). -/
abbrev Block := List Int

/-- Error value carried by a raised Python exception (message text). -/
abbrev Err := String

/-- The whitespace set of Python `str.strip()` / `str.rstrip()` (ASCII part). -/
def isSpaceChar (c : Char) : Bool :=
  c = ' ' || c = '\t' || c = '\n' || c = '\r' || c = '\x0b' || c = '\x0c'

/-- Python `str.lower()` (ASCII case folding, which covers the decoded
English Whisper output handled by the script). -/
def pyLower (s : Str) : Str := s.map Char.toLower

/-- Python `str.lstrip()` restricted to a character set `cs`. -/
def stripLead (cs : Str) (s : Str) : Str :=
  s.dropWhile (fun c => cs.contains c)

/-- Python `str.strip(cs)`: remove characters of `cs` from both ends. -/
def pyStripSet (cs : Str) (s : Str) : Str :=
  ((stripLead cs s).reverse.dropWhile (fun c => cs.contains c)).reverse

/-- Python `str.strip()` (no argument): trim whitespace from both ends. -/
def pyStrip (s : Str) : Str :=
  (((s.dropWhile isSpaceChar).reverse).dropWhile isSpaceChar).reverse

/-- Python `str.rstrip()`: trim trailing whitespace. -/
def pyRStrip (s : Str) : Str :=
  (s.reverse.dropWhile isSpaceChar).reverse

/-- Python `s.endswith(c)` for a single character `c` (empty string: False). -/
def pyEndsWith (c : Char) (s : Str) : Bool :=
  s.getLast? == some c

/-- The suffix of `l` after the first occurrence of `pat`, if `pat` occurs. -/
def afterFirst (pat : Str) : Str → Option Str
  | [] => if pat.isEmpty then some [] else none
  | c :: rest =>
    if pat.isPrefixOf (c :: rest) then some ((c :: rest).drop pat.length)
    else afterFirst pat rest

/-- Python `s.split(pat, 1)[-1]`: everything after the first occurrence of
`pat`, or the whole string when `pat` does not occur. -/
def pySplitLast (pat s : Str) : Str := (afterFirst pat s).getD s

/-- Python `s.split(sep, 1)` for a single-character separator known to occur:
the pair (text before the first `sep`, text after it). -/
def splitFirstAt (sep : Char) (s : Str) : Str × Str :=
  (s.takeWhile (fun c => c != sep), (s.dropWhile (fun c => c != sep)).drop 1)

/-- Index of the first occurrence of `pat` in `l` (start position), if any. -/
def subIdx (pat : Str) : Str → Option Nat
  | [] => if pat.isEmpty then some 0 else none
  | c :: rest =>
    if pat.isPrefixOf (c :: rest) then some 0
    else (subIdx pat rest).map (fun n => n + 1)

-- --- Config constants of voice.py (lines 57-76) ---

/-- Embeds `WAKE_WORD = 'megatron'`. -/
def WAKE_WORD : Str := "megatron".toList

/-- Embeds `SAMPLE_RATE = 16000`. -/
def SAMPLE_RATE : Nat := 16000

/-- Embeds `CHUNK_SIZE = 512`. -/
def CHUNK_SIZE : Nat := 512

/-- Embeds `SILENCE_THRESHOLD = 300`. -/
def SILENCE_THRESHOLD : Int := 300

/-- Embeds `MAX_RECORD_SECONDS = 12`. -/
def MAX_RECORD_SECONDS : Nat := 12

/-- Embeds `silence_needed = int(SILENCE_DURATION * SAMPLE_RATE / CHUNK_SIZE)` with
`SILENCE_DURATION = 2.0` (line 268); the float arithmetic is exact here and
`int()` truncates, so this is natural division: 62. -/
def silence_needed : Nat := 2 * SAMPLE_RATE / CHUNK_SIZE

/-- Embeds `max_chunks = int(MAX_RECORD_SECONDS * SAMPLE_RATE / CHUNK_SIZE)`
(line 269): 375. -/
def max_chunks : Nat := MAX_RECORD_SECONDS * SAMPLE_RATE / CHUNK_SIZE

-- --- Wake Spotter (listen_for_wake_word, lines 213-250) ---

/-- Python `pat in s` for strings: contiguous-substring test. -/
def isSubstr (pat : Str) : Str → Bool
  | [] => pat.isEmpty
  | c :: rest => pat.isPrefixOf (c :: rest) || isSubstr pat rest

/-- Embeds `WAKE_WORD in text.lower()` (line 239): case-insensitive substring test. -/
def containsWake (text : Str) : Bool :=
  isSubstr WAKE_WORD (pyLower text)

/-- The punctuation/whitespace set of `strip(' .,!?')` (line 243). -/
def WAKE_PUNCT : Str := [' ', '.', ',', '!', '?']

/-- Embeds `after_wake = text.lower().split(WAKE_WORD, 1)[-1].strip(' .,!?')`
(line 243): the text following the first occurrence of the wake word in the
lowercased decoded window, trimmed of surrounding punctuation/whitespace. -/
def after_wake (text : Str) : Str :=
  pyStripSet WAKE_PUNCT (pySplitLast WAKE_WORD (pyLower text))

/-- Result of one full-window wake check (lines 230-239): the buffer that
remains after the check, and whether the trigger fired.  In the source,
`wake_buffer = []` executes at line 232, before the transcription result
(and hence the outcome of the check) exists, so `newBuffer` is `[]`
independently of the decoded text. -/
structure WakeCheck where
  newBuffer : List Block
  triggered : Bool
deriving Repr

/-- One window check of the wake loop: assemble the window, clear the
buffer, decode, and test for the wake word.  `decode` is the black-box
`transcribe_with_model(whisper_wake, audio_float, ...)` collaborator
(composed with `audio_chunks_to_float`). -/
def wake_window_check (decode : List Block → Str) (buffer : List Block) : WakeCheck :=
  let text := decode buffer
  { newBuffer := [], triggered := containsWake text }

/-- The observable actions the triggered branch performs (lines 242-248).
`beepCue` models a call to `beep()`; `runInline cmd` models
`process_transcription(after_wake)`; `runCapture` models
`record_and_respond()`.  The source's triggered branch never calls
`beep()` — it goes straight to `record_and_respond()` on the short-tail
path — so `beepCue` never occurs in the produced action list. -/
inductive WakeAction
  | beepCue
  | runCapture
  | runInline (cmd : Str)
deriving DecidableEq, Repr

/-- The sequence of actions taken once the wake word has been detected in
the decoded text (lines 243-248). -/
def wake_trigger_actions (text : Str) : List WakeAction :=
  let aw := after_wake text
  if aw.length > 3 then [WakeAction.runInline aw] else [WakeAction.runCapture]

-- --- Energy Estimator / Utterance Capturer (lines 257-301) ---

/-- Embeds `calculate_audio_energy` (lines 257-260) computes the RMS
`sqrt(mean(|x|^2))` of the int16 samples and the capturer compares it with
`SILENCE_THRESHOLD` (line 279).  For a non-empty block, `rms < T` is
equivalent to `sum(x^2) < T^2 * n` over the integers, which is the exact
comparison embedded here; for an empty block NumPy's mean is NaN and the
comparison is False, matching `0 < 0` here. -/
def isSilentBlock (b : Block) : Bool :=
  decide ((b.map (fun x => x * x)).sum < SILENCE_THRESHOLD ^ 2 * (b.length : Int))

/-- Silence status of the `i`-th read of the capture stream: a failed
read (`length <= 0`) yields no block and counts as not-silent-not-loud
(it is skipped by the loop). -/
def streamSilent (stream : Nat → Option Block) (i : Nat) : Bool :=
  match stream i with
  | some b => isSilentBlock b
  | none => false

/-- The VAD recording loop of `record_and_respond` (lines 271-285).
Arguments: read index `i`, remaining iterations `fuel` (the loop is
`for i in range(max_chunks)`), and the running `silence_chunks` counter.
Returns the accumulated `audio_buffer` and whether the loop broke early
on silence.  A read with `length <= 0` is skipped (`continue`), consuming
an iteration but neither appending nor touching the counter. -/
def recordAux (stream : Nat → Option Block) : Nat → Nat → Nat → List Block × Bool
  | _, 0, _ => ([], false)
  | i, fuel + 1, silence =>
    match stream i with
    | none => recordAux stream (i + 1) fuel silence
    | some b =>
      if isSilentBlock b then
        if silence + 1 ≥ silence_needed then ([b], true)
        else
          let r := recordAux stream (i + 1) fuel (silence + 1)
          (b :: r.1, r.2)
      else
        let r := recordAux stream (i + 1) fuel 0
        (b :: r.1, r.2)

/-- Boolean projection of `recordAux`: does the loop break early on
silence? -/
def recordStops (stream : Nat → Option Block) : Nat → Nat → Nat → Bool
  | _, 0, _ => false
  | i, fuel + 1, silence =>
    match stream i with
    | none => recordStops stream (i + 1) fuel silence
    | some b =>
      if isSilentBlock b then
        if silence + 1 ≥ silence_needed then true
        else recordStops stream (i + 1) fuel (silence + 1)
      else recordStops stream (i + 1) fuel 0

/-- The full VAD capture (lines 265-285): start with an empty buffer and a
zero silence counter, loop for at most `max_chunks` reads. -/
def recordUtterance (stream : Nat → Option Block) : List Block × Bool :=
  recordAux stream 0 max_chunks 0

/-- Embeds `transcribe_with_model` (lines 174-190): the Whisper decode itself is a
black-box collaborator (`model`, composed with `audio_chunks_to_float`);
the source joins the segment texts and applies `.strip()` (line 190),
which is the part embedded here. -/
def transcribe_with_model (model : List Block → Str) (buffer : List Block) : Str :=
  pyStrip (model buffer)

/-- The capture-and-gate portion of `record_and_respond` (lines 262-301):
record with VAD, transcribe, and return the text handed to
`process_transcription` — or `none` when `if not transcription` aborts the
turn (line 297) before the orchestrator is invoked. -/
def record_and_respond (stream : Nat → Option Block) (stt : List Block → Str) : Option Str :=
  let buffer := (recordUtterance stream).1
  let transcription := transcribe_with_model stt buffer
  if transcription.isEmpty then none else some transcription

-- --- Directive Dispatcher (lines 349-383) ---

/-- The opening delimiter of an embedded directive payload. -/
def OPEN_TAG : Str := "<HA_COMMAND>".toList

/-- The closing delimiter of an embedded directive payload. -/
def CLOSE_TAG : Str := "</HA_COMMAND>".toList

/-- Embeds `re.findall(r'<HA_COMMAND>(.*?)</HA_COMMAND>', text, re.DOTALL)`
(line 351): scan left to right; at each opening tag take the shortest
stretch up to the next closing tag as one captured payload and continue
after it; an opening tag with no later closing tag matches nothing. -/
def extractPayloadsFuel : Nat → Str → List Str
  | 0, _ => []
  | _, [] => []
  | fuel + 1, c :: rest =>
    if OPEN_TAG.isPrefixOf (c :: rest) then
      match subIdx CLOSE_TAG ((c :: rest).drop OPEN_TAG.length) with
      | some i =>
        (((c :: rest).drop OPEN_TAG.length).take i) ::
          extractPayloadsFuel fuel (((c :: rest).drop OPEN_TAG.length).drop (i + CLOSE_TAG.length))
      | none => extractPayloadsFuel fuel rest
    else extractPayloadsFuel fuel rest

/-- Embeds `re.findall` entry point: the fuel starts at the text length, which
bounds the number of scan steps (every step strictly shortens the text). -/
def extractPayloads (text : Str) : List Str := extractPayloadsFuel text.length text

/-- Embeds `re.sub(r'<HA_COMMAND>.*?</HA_COMMAND>', '', text, flags=re.DOTALL)`
(line 383): same scan as `extractPayloads`, but deleting each match and
keeping everything else. -/
def stripTagsFuel : Nat → Str → Str
  | 0, _ => []
  | _, [] => []
  | fuel + 1, c :: rest =>
    if OPEN_TAG.isPrefixOf (c :: rest) then
      match subIdx CLOSE_TAG ((c :: rest).drop OPEN_TAG.length) with
      | some i =>
        stripTagsFuel fuel (((c :: rest).drop OPEN_TAG.length).drop (i + CLOSE_TAG.length))
      | none => c :: stripTagsFuel fuel rest
    else c :: stripTagsFuel fuel rest

/-- Embeds `re.sub` entry point, with the same fuel bound as `extractPayloads`. -/
def stripTags (text : Str) : Str := stripTagsFuel text.length text

/-- Embeds `clean_response` (lines 382-383): remove every directive encoding and
trim surrounding whitespace. -/
def clean_response (text : Str) : Str := pyStrip (stripTags text)

/-- A parsed directive payload (the dict produced by `json.loads`): a JSON
object with an optional `service` key, an optional `entity_id`, and
optional extra `data` parameters. -/
structure HACommand where
  service : Option Str
  entity_id : Option Str
  data : List (Str × Str)
deriving DecidableEq, Repr

/-- The control call `execute_ha_command` issues: the URL path components
`{HA_URL}/api/services/{domain}/{svc}` and the JSON payload
(`entity_id` if present, with `data` merged in). -/
structure HARequest where
  domain : Str
  svc : Str
  payload_entity : Option Str
  payload_data : List (Str × Str)
deriving DecidableEq, Repr

/-- Embeds `extract_ha_commands` (lines 349-356): each payload between the
delimiters is stripped and parsed by `json.loads` (the black-box
`jsonLoads`); parse failures (`JSONDecodeError`) are silently skipped. -/
def extract_ha_commands (jsonLoads : Str → Option HACommand) (text : Str) : List HACommand :=
  (extractPayloads text).filterMap (fun m => jsonLoads (pyStrip m))

/-- Embeds `execute_ha_command` (lines 358-380).  Everything runs inside a
`try/except` that logs and swallows any failure, so nothing propagates:
the function returns the request it issued (`none` when the directive was
skipped because `service` contains neither `'/'` nor `'.'`) and the
result of the HTTP post if one was made (`none` when no call was made;
an `Except.error` here was caught and logged at line 380). -/
def execute_ha_command (haPost : HARequest → Except Err Unit) (command : HACommand) :
    Option HARequest × Option (Except Err Unit) :=
  let service := command.service.getD []
  if !(service.contains '/') && !(service.contains '.') then (none, none)
  else
    let sep : Char := if service.contains '/' then '/' else '.'
    let parts := splitFirstAt sep service
    let req : HARequest :=
      { domain := parts.1, svc := parts.2,
        payload_entity := command.entity_id, payload_data := command.data }
    (some req, some (haPost req))

-- --- Conversation History / LLM chat (lines 333-345) ---

/-- One entry of `self.history` / one element of `messages`: a role tag and
text content. -/
structure Msg where
  role : Str
  content : Str
deriving DecidableEq, Repr

/-- The `SYSTEM_PROMPT` module constant (lines 78-108).  Only its first
line is reproduced; no claim inspects the prompt text, only its position
at the head of the message list. -/
def SYSTEM_PROMPT : Str :=
  "You are Megatron, a voice assistant running locally on Oracle1 (Raspberry Pi 5).".toList

/-- The system message placed at the head of every request (line 335). -/
def sysMsg : Msg := { role := "system".toList, content := SYSTEM_PROMPT }

/-- A `{'role': 'user', 'content': t}` history entry. -/
def userMsg (t : Str) : Msg := { role := "user".toList, content := t }

/-- A `{'role': 'assistant', 'content': t}` history entry. -/
def assistantMsg (t : Str) : Msg := { role := "assistant".toList, content := t }

/-- Python `l[-n:]`: the at-most-`n` most recent entries. -/
def takeLast (n : Nat) (l : List Msg) : List Msg := l.drop (l.length - n)

/-- The message list `chat` sends upstream (line 335):
`[{'role': 'system', ...}] + self.history[-10:]`, built after the user
entry has been appended. -/
def chatMessages (history : List Msg) (user_text : Str) : List Msg :=
  sysMsg :: takeLast 10 (history ++ [userMsg user_text])

/-- Embeds `chat` (lines 333-345).  `post` is the black-box
`requests.post(...)` + `raise_for_status()` + JSON extraction of
`choices[0].message.content`, returning the reply text or raising.
Returns (result, new stored history, message list sent).  The user entry
is appended before the call (line 334); the assistant entry is appended
only after a successful response (line 344) — on failure the exception
propagates out of `chat` with the history already grown by the unpaired
user entry. -/
def chat (post : List Msg → Except Err Str) (history : List Msg) (user_text : Str) :
    Except Err Str × List Msg × List Msg :=
  let h1 := history ++ [userMsg user_text]
  let messages := chatMessages history user_text
  match post messages with
  | Except.error e => (Except.error e, h1, messages)
  | Except.ok reply => (Except.ok reply, h1 ++ [assistantMsg reply], messages)

-- --- Turn Orchestrator (process_transcription, lines 303-329) ---

/-- The external collaborators one turn touches.  `post` is the Groq chat
endpoint (as in `chat`); `jsonLoads` is `json.loads` on a payload;
`haPost` is the Home-Assistant REST call of `execute_ha_command`;
`ttsPost` is the ElevenLabs request of `tts` (lines 387-399, whose
`raise_for_status` makes failures raise); `play` is the `mpg123`
subprocess run by `play_mp3` (lines 401-411, which catches and logs its
own failures). -/
structure TurnEnv where
  post : List Msg → Except Err Str
  jsonLoads : Str → Option HACommand
  haPost : HARequest → Except Err Unit
  ttsPost : Str → Except Err (List Nat)
  play : List Nat → Except Err Unit

/-- What one completed `process_transcription` activation did: the
per-directive requests issued (in extraction order, `none` for a skipped
directive) with the caught result of each dispatch, the derived spoken
text, the caught outcome of playback (`none` when nothing was played),
and how many times `record_and_respond` was invoked for a follow-up
(line 327). -/
structure TurnOutcome where
  requests : List (Option HARequest)
  dispatchResults : List (Option (Except Err Unit))
  spoken : Str
  playResult : Option (Except Err Unit)
  captures : Nat
deriving Repr

/-- Embeds `process_transcription` (lines 303-329), one activation (the recursive
re-entry through `record_and_respond` on a question is reported in
`captures`, not expanded).  There is no `try/except` in this function, in
`chat`, or in `tts`: an `Except.error` from `post` or `ttsPost` makes the
whole result `Except.error` — the exception propagates to the caller.
`execute_ha_command` and `play_mp3` catch their own failures, so their
results are recorded but never affect control flow.  The second component
is the stored history when the function finishes or the exception
escapes. -/
def process_transcription (env : TurnEnv) (history : List Msg) (transcription : Str) :
    Except Err TurnOutcome × List Msg :=
  match chat env.post history transcription with
  | (Except.error e, h1, _) => (Except.error e, h1)
  | (Except.ok reply, h1, _) =>
    let ha_commands := extract_ha_commands env.jsonLoads reply
    let dispatched := ha_commands.map (execute_ha_command env.haPost)
    let spoken := clean_response reply
    if spoken.isEmpty then
      (Except.ok
        { requests := dispatched.map (fun d => d.1),
          dispatchResults := dispatched.map (fun d => d.2),
          spoken := spoken, playResult := none, captures := 0 }, h1)
    else
      match env.ttsPost spoken with
      | Except.error e => (Except.error e, h1)
      | Except.ok audioBytes =>
        let pr := env.play audioBytes
        let cap := if pyEndsWith '?' (pyRStrip spoken) then 1 else 0
        (Except.ok
          { requests := dispatched.map (fun d => d.1),
            dispatchResults := dispatched.map (fun d => d.2),
            spoken := spoken, playResult := some pr, captures := cap }, h1)

-- --- General lemmas about the embedded operations ---

/-- Embeds `isSubstr` decides contiguous-substring containment. -/
theorem isSubstr_iff_infix (pat : Str) : ∀ l : Str, isSubstr pat l = true ↔ pat <:+: l := by
  intro l
  induction l with
  | nil => simp [isSubstr, List.isEmpty_iff]
  | cons c rest ih => simp [isSubstr, ih, List.infix_cons_iff]

/-- Characters of `afterFirst pat s` come from `s`. -/
theorem afterFirst_mem (pat : Str) :
    ∀ (s r : Str), afterFirst pat s = some r → ∀ x ∈ r, x ∈ s := by
  intro s
  induction s with
  | nil =>
    intro r hr x hx
    simp only [afterFirst] at hr
    split at hr
    · cases hr
      simp at hx
    · cases hr
  | cons c rest ih =>
    intro r hr x hx
    simp only [afterFirst] at hr
    split at hr
    · cases hr
      exact List.mem_of_mem_drop hx
    · exact List.mem_cons_of_mem c (ih r hr x hx)

/-- Characters of `pySplitLast pat s` come from `s`. -/
theorem pySplitLast_mem (pat s : Str) : ∀ x ∈ pySplitLast pat s, x ∈ s := by
  intro x hx
  unfold pySplitLast at hx
  cases ha : afterFirst pat s with
  | none => rw [ha] at hx; exact hx
  | some r => rw [ha] at hx; exact afterFirst_mem pat s r ha x hx

/-- Characters of `pyStripSet cs s` come from `s`. -/
theorem pyStripSet_mem (cs s : Str) : ∀ x ∈ pyStripSet cs s, x ∈ s := by
  intro x hx
  unfold pyStripSet stripLead at hx
  rw [List.mem_reverse] at hx
  have h1 := (List.dropWhile_sublist (fun c => cs.contains c)).mem hx
  rw [List.mem_reverse] at h1
  exact (List.dropWhile_sublist (fun c => cs.contains c)).mem h1

/-- Embeds `Char.toLower` is idempotent. -/
theorem char_toLower_idem (c : Char) : c.toLower.toLower = c.toLower := by
  unfold Char.toLower
  by_cases h : c.toNat ≥ 65 ∧ c.toNat ≤ 90
  · rw [if_pos h]
    have hv : (c.toNat + 32).isValidChar := Or.inl (by omega)
    have ht : (Char.ofNat (c.toNat + 32)).toNat = c.toNat + 32 := by
      unfold Char.ofNat
      rw [dif_pos hv]
      rfl
    rw [if_neg]
    rw [ht]
    omega
  · rw [if_neg h, if_neg h]

/-- A map that fixes every element of a list fixes the list. -/
theorem map_fixed {α : Type} {f : α → α} :
    ∀ l : List α, (∀ x ∈ l, f x = x) → l.map f = l := by
  intro l
  induction l with
  | nil => intro; rfl
  | cons a rest ih =>
    intro h
    simp only [List.map_cons]
    rw [h a (List.mem_cons_self a rest), ih (fun x hx => h x (List.mem_cons_of_mem a hx))]

/-- Every character of a lowercased string is fixed by `Char.toLower`. -/
theorem mem_pyLower_fixed {t : Str} {x : Char} (hx : x ∈ pyLower t) : x.toLower = x := by
  unfold pyLower at hx
  obtain ⟨y, _, rfl⟩ := List.mem_map.mp hx
  exact char_toLower_idem y

/-- A string of whitespace characters strips to nothing. -/
theorem pyStrip_eq_nil_of_all_space (s : Str) (hs : ∀ c ∈ s, isSpaceChar c = true) :
    pyStrip s = [] := by
  unfold pyStrip
  rw [List.dropWhile_eq_nil_iff.mpr hs]
  rfl

-- --- Claim theorems ---

/-- C5: for every assembled wake-check window, the Wake Spotter triggers
exactly when the decoded text contains the trigger phrase as a
case-insensitive substring, and in both cases the accumulated window is
discarded (the buffer is already empty before the outcome of the check is
known — `wake_buffer = []` at line 232 precedes the transcription, and the
resulting buffer below does not depend on `decode`). -/
theorem wake_check_trigger_iff (decode : List Block → Str) (buffer : List Block) :
    (wake_window_check decode buffer).newBuffer = []
    ∧ ((wake_window_check decode buffer).triggered = true ↔
        WAKE_WORD <:+: pyLower (decode buffer)) := by
  refine ⟨rfl, ?_⟩
  simp only [wake_window_check, containsWake]
  exact isSubstr_iff_infix WAKE_WORD (pyLower (decode buffer))

/-- C2 (code bug): on the decoded window text `"megatron"` the trailing
text after the wake phrase has length 0 ≤ 3, so the claim (and the
function's own docstring, lines 214-216) require an audible cue before
capture; the triggered branch of `listen_for_wake_word` (lines 243-248)
instead invokes `record_and_respond()` directly — `beep()` (lines
192-211) is defined but never called, so no beep action ever occurs. -/
theorem wake_short_tail_takes_capture_without_beep :
    containsWake ("megatron".toList) = true
    ∧ wake_trigger_actions ("megatron".toList) = [WakeAction.runCapture]
    ∧ WakeAction.beepCue ∉ wake_trigger_actions ("megatron".toList) := by
  refine ⟨by decide, by decide, by decide⟩

/-- C3 (counterexample): the directive `{"service": ".turn_on"}` does not
separate into a non-empty namespace and action — its namespace is empty —
yet `execute_ha_command` issues a control call for it (to
`/api/services//turn_on`), because lines 360-365 only test for the
presence of a separator, never for non-emptiness of the parts. -/
theorem dispatch_empty_namespace_ce :
    (execute_ha_command (fun _ => Except.ok ())
        { service := some (".turn_on".toList), entity_id := none, data := [] }).1 =
      some { domain := [], svc := "turn_on".toList,
             payload_entity := none, payload_data := [] } := by
  decide

/-- C3 (amended): a control call is issued if and only if the directive's
service identifier contains one of the two accepted separators; the
identifier is split at the first occurrence of the preferred separator
(`'/'` when present, else `'.'`) into a namespace and an action, either
of which may be empty; a directive whose identifier contains neither
separator is skipped with no call made and no error surfaced. -/
theorem dispatch_separator_amended (haPost : HARequest → Except Err Unit) (cmd : HACommand) :
    ((execute_ha_command haPost cmd).1.isSome = true ↔
      ((cmd.service.getD []).contains '/' = true ∨ (cmd.service.getD []).contains '.' = true))
    ∧ (∀ req, (execute_ha_command haPost cmd).1 = some req →
        req.domain = (splitFirstAt (if (cmd.service.getD []).contains '/' then '/' else '.')
            (cmd.service.getD [])).1
        ∧ req.svc = (splitFirstAt (if (cmd.service.getD []).contains '/' then '/' else '.')
            (cmd.service.getD [])).2
        ∧ req.payload_entity = cmd.entity_id ∧ req.payload_data = cmd.data)
    ∧ ((execute_ha_command haPost cmd).1 = none → (execute_ha_command haPost cmd).2 = none) := by
  unfold execute_ha_command
  by_cases h1 : '/' ∈ (cmd.service.getD [])
  · simp [h1]
  · by_cases h2 : '.' ∈ (cmd.service.getD [])
    · simp [h1, h2]
    · simp [h1, h2]

/-- Witness for `dispatch_separator_amended`: the directive
`{"service": "light.turn_on"}` is dispatched. -/
theorem dispatch_separator_amended_w :
    (execute_ha_command (fun _ => Except.ok ())
        { service := some ("light.turn_on".toList), entity_id := none, data := [] }).1.isSome
      = true :=
  (dispatch_separator_amended (fun _ => Except.ok ())
      { service := some ("light.turn_on".toList), entity_id := none, data := [] }).1.mpr
    (Or.inr (by decide))

/-- C7: for every dialog exchange call the message list sent upstream is
the system prompt followed by at most the 10 most recent history entries
(a suffix of the stored history at call time), while the stored history
only ever grows — the prior history, including the just-appended user
entry, is a prefix of the history left behind, whatever `post` returns. -/
theorem chat_context_window_bound (post : List Msg → Except Err Str)
    (h : List Msg) (u : Str) :
    (chat post h u).2.2 = sysMsg :: takeLast 10 (h ++ [userMsg u])
    ∧ ((chat post h u).2.2).length ≤ 11
    ∧ takeLast 10 (h ++ [userMsg u]) <:+ (h ++ [userMsg u])
    ∧ (h ++ [userMsg u]) <+: (chat post h u).2.1 := by
  have hmsg : (chat post h u).2.2 = chatMessages h u := by
    cases hp : post (chatMessages h u) <;> simp [chat, hp]
  refine ⟨by rw [hmsg]; rfl, ?_, ?_, ?_⟩
  · rw [hmsg]
    unfold chatMessages takeLast
    simp only [List.length_cons, List.length_drop]
    omega
  · exact List.drop_suffix _ _
  · cases hp : post (chatMessages h u) with
    | error e =>
      simp [chat, hp]
    | ok reply =>
      simp only [chat, hp]
      exact ⟨[assistantMsg reply], rfl⟩

/-- Any element close enough to the end of a list survives `takeLast`. -/
theorem mem_takeLast_of_near_end (l1 l2 : List Msg) (a : Msg) (n : Nat)
    (hn : l2.length + 1 ≤ n) : a ∈ takeLast n (l1 ++ a :: l2) := by
  unfold takeLast
  have hlen : (l1 ++ a :: l2).length = l1.length + (l2.length + 1) := by
    simp
  rw [hlen]
  have hle : l1.length + (l2.length + 1) - n ≤ l1.length := by omega
  rw [List.drop_append_of_le_length hle]
  exact List.mem_append_right _ (List.mem_cons_self a l2)

/-- C9: `chat` appends the user entry to the stored history before the
network call and appends the assistant entry only on success, so a failed
call leaves the history grown by exactly the unpaired trailing user turn;
that unpaired turn is then part of the message list the next dialog
exchange sends upstream. -/
theorem chat_failure_unpaired_user (post post2 : List Msg → Except Err Str)
    (h : List Msg) (u u2 : Str) (e : Err)
    (hfail : post (chatMessages h u) = Except.error e) :
    (chat post h u).1 = Except.error e
    ∧ (chat post h u).2.1 = h ++ [userMsg u]
    ∧ userMsg u ∈ (chat post2 ((chat post h u).2.1) u2).2.2 := by
  have hch : chat post h u = (Except.error e, h ++ [userMsg u], chatMessages h u) := by
    simp [chat, hfail]
  refine ⟨by rw [hch], by rw [hch], ?_⟩
  rw [hch]
  have hmsg : (chat post2 (h ++ [userMsg u]) u2).2.2 = chatMessages (h ++ [userMsg u]) u2 := by
    cases hp : post2 (chatMessages (h ++ [userMsg u]) u2) <;> simp [chat, hp]
  rw [hmsg]
  unfold chatMessages
  refine List.mem_cons_of_mem _ ?_
  have : (h ++ [userMsg u]) ++ [userMsg u2] = h ++ userMsg u :: [userMsg u2] := by
    simp
  rw [this]
  exact mem_takeLast_of_near_end h [userMsg u2] (userMsg u) 10 (by simp)

/-- Witness for `chat_failure_unpaired_user`: a concrete failing call
followed by a successful one. -/
theorem chat_failure_unpaired_user_w :
    (chat (fun _ => Except.error "timeout") [] ("hello".toList)).1 = Except.error "timeout"
    ∧ (chat (fun _ => Except.error "timeout") [] ("hello".toList)).2.1
        = [] ++ [userMsg ("hello".toList)]
    ∧ userMsg ("hello".toList) ∈
        (chat (fun _ => Except.ok ("fine".toList))
          ((chat (fun _ => Except.error "timeout") [] ("hello".toList)).2.1)
          ("again".toList)).2.2 :=
  chat_failure_unpaired_user (fun _ => Except.error "timeout")
    (fun _ => Except.ok ("fine".toList)) [] ("hello".toList) ("again".toList) "timeout" rfl

/-- A turn environment whose dialog exchange call raises (network failure). -/
def envChatFail : TurnEnv :=
  { post := fun _ => Except.error "connection timeout",
    jsonLoads := fun _ => none,
    haPost := fun _ => Except.ok (),
    ttsPost := fun _ => Except.ok [],
    play := fun _ => Except.ok () }

/-- C1 (counterexample): a network failure raised during the dialog
exchange call of step 2 is NOT caught inside the turn — there is no
`try/except` in `process_transcription` or `chat`, so the exception
(here, of the concrete turn on input "hello") propagates out of the turn
instead of being logged and ending the turn normally. -/
theorem turn_chat_failure_propagates_ce :
    (process_transcription envChatFail [] ("hello".toList)).1
      = Except.error "connection timeout" := rfl

/-- C1 (amended): per-directive dispatch failures and playback failures
are caught and logged inside the turn — the turn completes with every
extracted directive processed, whatever `haPost` and `play` return — but
a failure raised during the dialog exchange call or during speech
synthesis is NOT caught: it propagates out of
`process_transcription` (and the enclosing listener catches only
`KeyboardInterrupt`), so the turn does not end normally in those cases. -/
theorem turn_failure_containment (env : TurnEnv) (h : List Msg) (t : Str) :
    (∀ e, env.post (chatMessages h t) = Except.error e →
        (process_transcription env h t).1 = Except.error e)
    ∧ (∀ reply e, env.post (chatMessages h t) = Except.ok reply →
        (clean_response reply).isEmpty = false →
        env.ttsPost (clean_response reply) = Except.error e →
        (process_transcription env h t).1 = Except.error e)
    ∧ (∀ reply, env.post (chatMessages h t) = Except.ok reply →
        ((clean_response reply).isEmpty = true ∨
          (∃ b, env.ttsPost (clean_response reply) = Except.ok b)) →
        ∃ o, (process_transcription env h t).1 = Except.ok o
          ∧ o.requests.length = (extract_ha_commands env.jsonLoads reply).length
          ∧ o.dispatchResults.length = (extract_ha_commands env.jsonLoads reply).length) := by
  refine ⟨?_, ?_, ?_⟩
  · intro e he
    simp [process_transcription, chat, he]
  · intro reply e hp hne htts
    simp [process_transcription, chat, hp, hne, htts]
  · intro reply hp hor
    rcases hor with hemp | ⟨b, hb⟩
    · simp [process_transcription, chat, hp, hemp]
    · by_cases hemp : (clean_response reply).isEmpty
      · simp [process_transcription, chat, hp, hemp]
      · simp [process_transcription, chat, hp, hemp, hb]

/-- A turn environment where the chat call succeeds but synthesis raises;
the dispatch and playback collaborators also fail, which must not matter. -/
def envTtsFail : TurnEnv :=
  { post := fun _ => Except.ok ("Hello there.".toList),
    jsonLoads := fun _ => none,
    haPost := fun _ => Except.error "ha down",
    ttsPost := fun _ => Except.error "tts down",
    play := fun _ => Except.error "playback failed" }

/-- Witness for `turn_failure_containment`: a concrete synthesis failure
propagates out of the concrete turn. -/
theorem turn_failure_containment_w :
    (process_transcription envTtsFail [] ("hi".toList)).1 = Except.error "tts down" :=
  (turn_failure_containment envTtsFail [] ("hi".toList)).2.1
    ("Hello there.".toList) "tts down" rfl (by decide) rfl

/-- C6: in any completed turn, the Utterance Capturer is re-invoked (with
no wake phrase required) exactly once when the spoken reply is non-empty
and, after trimming trailing whitespace, ends with a question mark — and
zero times otherwise (in particular when the spoken text is empty). -/
theorem question_followup_capture (env : TurnEnv) (h h2 : List Msg) (t : Str)
    (o : TurnOutcome)
    (hok : process_transcription env h t = (Except.ok o, h2)) :
    o.captures =
      if o.spoken.isEmpty = false ∧ pyEndsWith '?' (pyRStrip o.spoken) = true
      then 1 else 0 := by
  cases hp : env.post (chatMessages h t) with
  | error e =>
    simp [process_transcription, chat, hp] at hok
  | ok reply =>
    by_cases hemp : (clean_response reply).isEmpty
    · simp [process_transcription, chat, hp, hemp] at hok
      obtain ⟨ho, -⟩ := hok
      subst ho
      simp [hemp]
    · cases htts : env.ttsPost (clean_response reply) with
      | error e =>
        simp [process_transcription, chat, hp, hemp, htts] at hok
      | ok b =>
        simp [process_transcription, chat, hp, hemp, htts] at hok
        obtain ⟨ho, -⟩ := hok
        subst ho
        by_cases hq : pyEndsWith '?' (pyRStrip (clean_response reply)) = true
        · simp [hq, hemp]
        · simp [hq, hemp]

/-- A turn environment whose reply is the question "Shall I?". -/
def envQuestion : TurnEnv :=
  { post := fun _ => Except.ok ("Shall I?".toList),
    jsonLoads := fun _ => none,
    haPost := fun _ => Except.ok (),
    ttsPost := fun _ => Except.ok [],
    play := fun _ => Except.ok () }

/-- The outcome of the concrete question turn used as witness below. -/
def outcomeQuestion : TurnOutcome :=
  { requests := [], dispatchResults := [], spoken := "Shall I?".toList,
    playResult := some (Except.ok ()), captures := 1 }

/-- Witness for `question_followup_capture`: the concrete turn whose reply
is "Shall I?" re-invokes the capturer exactly once. -/
theorem question_followup_capture_w :
    outcomeQuestion.captures =
      if outcomeQuestion.spoken.isEmpty = false
          ∧ pyEndsWith '?' (pyRStrip outcomeQuestion.spoken) = true
      then 1 else 0 :=
  question_followup_capture envQuestion []
    [userMsg ("hi".toList), assistantMsg ("Shall I?".toList)]
    ("hi".toList) outcomeQuestion rfl

/-- C8: an empty or whitespace-only transcription never reaches the Turn
Orchestrator: a whitespace-only decode makes `record_and_respond` abort
the turn before invoking `process_transcription`, and whenever the
orchestrator is invoked its input is the trimmed decode and non-empty. -/
theorem empty_transcription_never_orchestrated (stream : Nat → Option Block)
    (stt : List Block → Str) :
    ((∀ c ∈ stt ((recordUtterance stream).1), isSpaceChar c = true) →
        record_and_respond stream stt = none)
    ∧ ∀ t, record_and_respond stream stt = some t →
        t ≠ [] ∧ t = pyStrip (stt ((recordUtterance stream).1)) := by
  constructor
  · intro hs
    simp only [record_and_respond, transcribe_with_model]
    rw [pyStrip_eq_nil_of_all_space _ hs]
    rfl
  · intro t ht
    simp only [record_and_respond, transcribe_with_model] at ht
    by_cases he : (pyStrip (stt ((recordUtterance stream).1))).isEmpty
    · simp [he] at ht
    · simp [he] at ht
      refine ⟨?_, ht.symm⟩
      rw [← ht]
      simpa using he

/-- Witness for `empty_transcription_never_orchestrated`: a whitespace-only
decode of an all-quiet capture aborts the turn. -/
theorem empty_transcription_never_orchestrated_w :
    record_and_respond (fun _ => some [0]) (fun _ => [' ', ' ']) = none :=
  (empty_transcription_never_orchestrated (fun _ => some [0]) (fun _ => [' ', ' '])).1
    (by decide)

/-- C10: the inline-command path hands the Turn Orchestrator text carved
out of the lowercased decoded window — so it is invariant under further
lowercasing — whereas the capture path hands over the transcriber's
output unchanged except for whitespace trimming (its casing is
preserved). -/
theorem inline_lowercase_capture_casing :
    (∀ text : Str, pyLower (after_wake text) = after_wake text)
    ∧ ∀ (stream : Nat → Option Block) (stt : List Block → Str) (t : Str),
        record_and_respond stream stt = some t →
        t = pyStrip (stt ((recordUtterance stream).1)) := by
  constructor
  · intro text
    unfold after_wake
    apply map_fixed
    intro x hx
    exact mem_pyLower_fixed (pySplitLast_mem _ _ x (pyStripSet_mem _ _ x hx))
  · intro stream stt t ht
    simp only [record_and_respond, transcribe_with_model] at ht
    by_cases he : (pyStrip (stt ((recordUtterance stream).1))).isEmpty
    · simp [he] at ht
    · simp [he] at ht
      exact ht.symm

/-- Witness for `inline_lowercase_capture_casing`: a concrete mixed-case
window on the inline path, and a concrete capture whose mixed-case decode
is forwarded with only its surrounding whitespace removed. -/
theorem inline_lowercase_capture_casing_w :
    pyLower (after_wake ("MEGATRON Turn On The Lights".toList))
      = after_wake ("MEGATRON Turn On The Lights".toList)
    ∧ "Hello There".toList
        = pyStrip ((fun _ => " Hello There ".toList) ((recordUtterance (fun _ => some [0])).1)) :=
  ⟨inline_lowercase_capture_casing.1 ("MEGATRON Turn On The Lights".toList),
   inline_lowercase_capture_casing.2 (fun _ => some [0]) (fun _ => " Hello There ".toList)
     ("Hello There".toList) rfl⟩

/-- The early-stop flag of the recording loop is `recordStops`. -/
theorem recordAux_snd (stream : Nat → Option Block) :
    ∀ fuel i silence,
      (recordAux stream i fuel silence).2 = recordStops stream i fuel silence := by
  intro fuel
  induction fuel with
  | zero => intro i silence; rfl
  | succ fuel ih =>
    intro i silence
    simp only [recordAux, recordStops]
    cases hs : stream i with
    | none => exact ih (i + 1) silence
    | some b =>
      by_cases hb : isSilentBlock b
      · by_cases hstop : silence + 1 ≥ silence_needed
        · simp [hb, hstop]
        · simp [hb, hstop, ih]
      · simp [hb, ih]

/-- The recording loop runs at most `fuel` iterations, so it accumulates
at most `fuel` blocks. -/
theorem recordAux_length (stream : Nat → Option Block) :
    ∀ fuel i silence, (recordAux stream i fuel silence).1.length ≤ fuel := by
  intro fuel
  induction fuel with
  | zero => intro i s; simp [recordAux]
  | succ fuel ih =>
    intro i s
    simp only [recordAux]
    cases hs : stream i with
    | none => exact Nat.le_succ_of_le (ih (i + 1) s)
    | some b =>
      by_cases hb : isSilentBlock b
      · by_cases hstop : s + 1 ≥ silence_needed
        · simp [hb, hstop]
        · simp only [hb, if_true, hstop, if_false, List.length_cons]
          have := ih (i + 1) (s + 1)
          omega
      · dsimp only
        rw [if_neg hb]
        simp only [List.length_cons]
        have := ih (i + 1) 0
        omega

/-- Characterization of the early-stop flag: starting with counter `c`,
the loop stops on silence exactly when either the remaining
`silence_needed - c` blocks of the initial run are all silent within the
window, or some full run of `silence_needed` consecutive silent reads
completes within the window.  All reads in the window are assumed to
succeed. -/
theorem recordStops_iff (stream : Nat → Option Block) :
    ∀ fuel i c, c < silence_needed →
      (∀ m, i ≤ m → m < i + fuel → (stream m).isSome = true) →
      (recordStops stream i fuel c = true ↔
        ((silence_needed - c ≤ fuel
            ∧ ∀ m, i ≤ m → m < i + (silence_needed - c) → streamSilent stream m = true)
          ∨ ∃ j, i ≤ j ∧ j + silence_needed ≤ i + fuel
              ∧ ∀ m, j ≤ m → m < j + silence_needed → streamSilent stream m = true)) := by
  intro fuel
  induction fuel with
  | zero =>
    intro i c hc _
    simp only [recordStops, Bool.false_eq_true, false_iff]
    rintro (⟨hlen, -⟩ | ⟨j, hj1, hj2, -⟩)
    · omega
    · omega
  | succ fuel ih =>
    intro i c hc hall
    have h0 : (stream i).isSome = true := hall i (Nat.le_refl i) (by omega)
    obtain ⟨b, hb⟩ := Option.isSome_iff_exists.mp h0
    have hsil : streamSilent stream i = isSilentBlock b := by
      simp [streamSilent, hb]
    have hall2 : ∀ m, i + 1 ≤ m → m < (i + 1) + fuel → (stream m).isSome = true := by
      intro m h1 h2
      exact hall m (by omega) (by omega)
    simp only [recordStops, hb]
    by_cases hlow : isSilentBlock b
    · rw [if_pos hlow]
      by_cases hstop : c + 1 ≥ silence_needed
      · rw [if_pos hstop]
        constructor
        · intro _
          left
          refine ⟨by omega, ?_⟩
          intro m hm1 hm2
          have hmi : m = i := by omega
          rw [hmi, hsil]
          exact hlow
        · intro _
          rfl
      · rw [if_neg hstop]
        rw [ih (i + 1) (c + 1) (by omega) hall2]
        constructor
        · rintro (⟨hlen, hrun⟩ | ⟨j, hj1, hj2, hrun⟩)
          · left
            refine ⟨by omega, ?_⟩
            intro m hm1 hm2
            by_cases hmi : m = i
            · rw [hmi, hsil]; exact hlow
            · exact hrun m (by omega) (by omega)
          · right
            exact ⟨j, by omega, by omega, hrun⟩
        · rintro (⟨hlen, hrun⟩ | ⟨j, hj1, hj2, hrun⟩)
          · left
            refine ⟨by omega, ?_⟩
            intro m hm1 hm2
            exact hrun m (by omega) (by omega)
          · by_cases hji : j = i
            · left
              refine ⟨by omega, ?_⟩
              intro m hm1 hm2
              exact hrun m (by omega) (by omega)
            · right
              exact ⟨j, by omega, by omega, hrun⟩
    · rw [if_neg hlow]
      rw [ih (i + 1) 0 (by omega) hall2]
      have hnotsil : streamSilent stream i = false := by
        rw [hsil]
        exact Bool.not_eq_true _ |>.mp hlow
      constructor
      · rintro (⟨hlen, hrun⟩ | ⟨j, hj1, hj2, hrun⟩)
        · right
          refine ⟨i + 1, by omega, by omega, ?_⟩
          intro m hm1 hm2
          exact hrun m (by omega) (by omega)
        · right
          exact ⟨j, by omega, by omega, hrun⟩
      · rintro (⟨hlen, hrun⟩ | ⟨j, hj1, hj2, hrun⟩)
        · exfalso
          have := hrun i (Nat.le_refl i) (by omega)
          rw [hnotsil] at this
          cases this
        · by_cases hji : j = i
          · exfalso
            have := hrun i (by omega) (by omega)
            rw [hnotsil] at this
            cases this
          · right
            exact ⟨j, by omega, by omega, hrun⟩

/-- C4: assuming every read in the window succeeds, the Utterance Capturer
stops early if and only if some run of `silence_needed` consecutive reads
(62 blocks, the configured silence duration in block units) is entirely
below the silence threshold and completes within the `max_chunks` window
— any at-or-above-threshold read breaks such a run — and in every case
the loop performs at most `max_chunks` iterations (the maximum recording
duration in block units), so at most that many blocks are accumulated. -/
theorem utterance_capture_vad_iff (stream : Nat → Option Block)
    (hall : ∀ m, m < max_chunks → (stream m).isSome = true) :
    ((recordUtterance stream).2 = true ↔
      ∃ j, j + silence_needed ≤ max_chunks
        ∧ ∀ m, j ≤ m → m < j + silence_needed → streamSilent stream m = true)
    ∧ (recordUtterance stream).1.length ≤ max_chunks := by
  constructor
  · unfold recordUtterance
    rw [recordAux_snd]
    rw [recordStops_iff stream max_chunks 0 0 (by decide)
        (fun m h1 h2 => hall m (by omega))]
    constructor
    · rintro (⟨hlen, hrun⟩ | ⟨j, hj1, hj2, hrun⟩)
      · exact ⟨0, by omega, fun m h1 h2 => hrun m (by omega) (by omega)⟩
      · exact ⟨j, by omega, hrun⟩
    · rintro ⟨j, hj, hrun⟩
      right
      exact ⟨j, by omega, by omega, hrun⟩
  · exact recordAux_length stream max_chunks 0 0

/-- Witness for `utterance_capture_vad_iff`: an all-quiet stream stops the
capturer early, and the buffer respects the hard cap. -/
theorem utterance_capture_vad_iff_w :
    ((recordUtterance (fun _ => some [0])).2 = true)
    ∧ (recordUtterance (fun _ => some [0])).1.length ≤ max_chunks :=
  ⟨(utterance_capture_vad_iff (fun _ => some [0]) (fun _ _ => rfl)).1.mpr
      ⟨0, by decide, fun _ _ _ => rfl⟩,
   (utterance_capture_vad_iff (fun _ => some [0]) (fun _ _ => rfl)).2⟩
